import Mathlib

/-!
Verification development for the vector-catalog sidecar
(`src/sidecar/index_service.py`).

The serving layer (`ShardIndex`, `IndexServiceImpl` with its `SearchIndex`
and `ReloadIndex` handlers, startup discovery `_load_all_shards`) is embedded
directly from the Python source.  The ANN engine itself (`faiss.read_index`,
`index.search`) is a native library the source merely wraps, so the engine is
modelled from the specification's §4.1-§4.4 (IVF-PQ: coarse cells, product
quantization, asymmetric distance computation, top-k selection); those
definitions carry a `Modelled from the spec:` doc comment.

Vector coordinates are embedded as exact integers (the claims under
verification are about result shapes, control flow and state, never about
fractional or floating-point behaviour, and squared-distance arithmetic is
closed over the integers); machine integers are `Int`/`Nat`.  The filesystem is a partial map from path to parsed artifact
(`none` = missing or corrupt, i.e. `faiss.read_index` raises).
-/

namespace VCS

/-- A vector: finite sequence of (exact, integer-embedded) coordinates. -/
abbrev Vec := List Int

/-- Squared L2 distance between two vectors, componentwise over the zip. -/
def sqDist (u v : Vec) : Int :=
  (List.zipWith (fun a b => (a - b) * (a - b)) u v).sum

/-- Componentwise difference `u - v` (the residual of `u` against centroid `v`). -/
def vsub (u v : Vec) : Vec :=
  List.zipWith (fun a b => a - b) u v

/-- One inverted-list entry: an external id together with its PQ code
(`m` small integers, one per segment). -/
structure PQEntry where
  externalId : Int
  code : List Nat
deriving Repr, DecidableEq

/-- Modelled from the spec: the `Index` record of §3 — `{dimension, nlist, m,
nbits, coarse centroids, sub-codebooks, nlist inverted lists, total vector
count}`.  This is what `faiss.read_index` yields in the source; the artifact
is self-describing, so the whole record is reconstructed from the file. -/
structure Index where
  dimension : Nat
  nlist : Nat
  m : Nat
  nbits : Nat
  coarseCentroids : List Vec
  subCodebooks : List (List Vec)
  invertedLists : List (List PQEntry)
  ntotal : Nat
deriving Repr, DecidableEq

/-- Insertion into a list sorted by the boolean preorder `le`. -/
def insertSorted (le : α → α → Bool) (x : α) : List α → List α
  | [] => [x]
  | y :: ys => if le x y then x :: y :: ys else y :: insertSorted le x ys

/-- Insertion sort by the boolean preorder `le`. -/
def sortByLe (le : α → α → Bool) (l : List α) : List α :=
  l.foldr (insertSorted le) []

/-- Order on `(distance, id)` pairs: ascending distance, ties broken by
ascending second component (cell id or external id), per spec §4.4. -/
def keyLe [LinearOrder β] (a b : Int × β) : Bool :=
  decide (a.1 < b.1 ∨ (a.1 = b.1 ∧ a.2 ≤ b.2))

/-- Split a vector into `n` consecutive segments of length `segLen`. -/
def segmentsAux (segLen : Nat) : Nat → List Int → List Vec
  | 0, _ => []
  | n + 1, v => v.take segLen :: segmentsAux segLen n (v.drop segLen)

/-- Modelled from the spec (§4.2): the residual is split into `m` equal
segments of length `d/m`. -/
def residualSegments (idx : Index) (r : Vec) : List Vec :=
  segmentsAux (idx.dimension / idx.m) idx.m r

/-- Modelled from the spec (§4.2, §4.4 steps 3-4): asymmetric distance of a
candidate's code against the query — residual of the query against the probed
cell's coarse centroid, then per segment the squared distance to the
sub-centroid the code names, summed over the `m` segments.  The per-segment
distance tables of §4.2 are an evaluation strategy for exactly these values;
the modelled distance is the table-lookup sum. -/
def adcDist (idx : Index) (q : Vec) (cell : Nat) (code : List Nat) : Int :=
  let centroid := idx.coarseCentroids.getD cell []
  let r := vsub q centroid
  let segs := residualSegments idx r
  (List.zipWith (fun p j => sqDist p.1 (p.2.getD j [])) (segs.zip idx.subCodebooks) code).sum

/-- Modelled from the spec (§4.4 step 2): clamp `nprobe` to `[1, nlist]`,
rank all coarse cells by distance from the query (ties by lower cell id),
and keep the `nprobe` nearest cell ids. -/
def Index.probedCells (idx : Index) (q : Vec) (nprobe : Nat) : List Nat :=
  let np := min (max nprobe 1) idx.nlist
  let ranked := sortByLe keyLe ((idx.coarseCentroids.enum).map (fun p => (sqDist q p.2, p.1)))
  (ranked.take np).map (fun p => p.2)

/-- Modelled from the spec (§4.4 step 4): every `(id, code)` entry of the
probed cells' inverted lists, scored by asymmetric distance. -/
def Index.candidates (idx : Index) (q : Vec) (nprobe : Nat) : List (Int × Int) :=
  (idx.probedCells q nprobe).flatMap
    (fun c => (idx.invertedLists.getD c []).map (fun e => (adcDist idx q c e.code, e.externalId)))

/-- Modelled from the spec (§4.4 steps 5-6): keep the `top_k` smallest
candidates, ordered by ascending distance, ties by ascending external id;
returned as parallel `(distance, id)` pairs. -/
def Index.search (idx : Index) (q : Vec) (top_k nprobe : Nat) : List (Int × Int) :=
  (sortByLe keyLe (idx.candidates q nprobe)).take top_k

/-! ## The serving layer, embedded from `src/sidecar/index_service.py` -/

/-- The filesystem: a partial map from path to the artifact parsed at that
path.  `none` embeds every way `faiss.read_index` can fail (file missing,
unreadable, corrupt) — the source only ever observes such failures as a
raised exception. -/
abbrev FS := String → Option Index

/-- Embeds `ShardIndex` (`index_service.py` lines 22-47): shard key, the
artifact path it was loaded from, the loaded index, and the cached
`dimension` / `total_vectors` fields (`self.dimension = self.index.d`,
`self.total_vectors = self.index.ntotal`). -/
structure ShardIndex where
  shard_key : String
  index_path : String
  index : Index
  dimension : Nat
  total_vectors : Nat
deriving Repr, DecidableEq

/-- Embeds `ShardIndex.__init__`: reads the artifact; a read failure raises
(here: `none`), otherwise the fields are populated from the loaded index. -/
def ShardIndex.load (fs : FS) (shard_key index_path : String) : Option ShardIndex :=
  match fs index_path with
  | some idx =>
      some { shard_key := shard_key, index_path := index_path, index := idx,
             dimension := idx.dimension, total_vectors := idx.ntotal }
  | none => none

/-- Embeds `ShardIndex.search` (lines 49-73): sets `nprobe` on the index and
delegates to the engine, returning the parallel `(distances, indices)`
sequences with the batch dimension removed. -/
def ShardIndex.search (s : ShardIndex) (q : Vec) (top_k nprobe : Nat) :
    List Int × List Int :=
  let res := s.index.search q top_k nprobe
  (res.map Prod.fst, res.map Prod.snd)

/-- Embeds `ShardIndex.reload` (lines 75-92): re-read the artifact; on
success assign `index`, `dimension`, `total_vectors` and return `True`; any
exception is caught and `False` returned with the fields untouched.  (The
read happens before any assignment, so a failed read changes nothing.) -/
def ShardIndex.reload (fs : FS) (s : ShardIndex) : ShardIndex × Bool :=
  match fs s.index_path with
  | some newIndex =>
      ({ s with index := newIndex, dimension := newIndex.dimension,
                total_vectors := newIndex.ntotal }, true)
  | none => (s, false)

/-- The registry's shard map, as an association list with dict semantics
(each key bound at most once when built by `dictInsert` from empty). -/
abbrev Shards := List (String × ShardIndex)

/-- `shard_key in self.shards` / `self.shards[shard_key]` lookup. -/
def lookupShard (k : String) : Shards → Option ShardIndex
  | [] => none
  | (k', s) :: rest => if k' = k then some s else lookupShard k rest

/-- `self.shards[shard_key] = value` with Python dict semantics: overwrite
the existing binding in place if present, else append at the end. -/
def dictInsert (k : String) (v : ShardIndex) : Shards → Shards
  | [] => [(k, v)]
  | (k1, v1) :: rest =>
      if k1 = k then (k, v) :: rest else (k1, v1) :: dictInsert k v rest

/-- `list(self.shards.keys())`. -/
def availableKeys (d : Shards) : List String :=
  d.map (fun p => p.1)

/-- Python's `repr` of a list of strings, as interpolated into the
"Available shards" messages: `['a', 'b']`. -/
def pyStrList (ks : List String) : String :=
  "[" ++ String.intercalate ", " (ks.map (fun k => "'" ++ k ++ "'")) ++ "]"

/-- `os.path.join(self.index_dir, filename)`. -/
def joinPath (dir f : String) : String := dir ++ "/" ++ f

/-- Python's `f.endswith('.index')`: the suffix comparison, in a
kernel-reducible form over the character list. -/
def strEndsWith (s suffix : String) : Bool :=
  decide (s.data.drop (s.data.length - suffix.data.length) = suffix.data)

/-- Left-to-right removal of the non-overlapping occurrences of `pat`
(Python's `str.replace(pat, '')`), fuelled for structural termination. -/
def dropOccurrences (pat : List Char) : Nat → List Char → List Char
  | _, [] => []
  | 0, s => s
  | fuel + 1, c :: rest =>
      if (c :: rest).take pat.length = pat then
        dropOccurrences pat fuel ((c :: rest).drop pat.length)
      else c :: dropOccurrences pat fuel rest

/-- `filename.replace(".index", "")` — the shard key is the filename with
every occurrence of `.index` removed. -/
def shardKeyOf (filename : String) : String :=
  ⟨dropOccurrences ".index".data filename.data.length filename.data⟩

/-- One iteration of the discovery loop (`_load_all_shards` lines 128-134):
try to construct the `ShardIndex`; on failure the exception is caught and
logged, leaving the map as it was. -/
def loadStep (fs : FS) (dir : String) (acc : Shards) (filename : String) : Shards :=
  match ShardIndex.load fs (shardKeyOf filename) (joinPath dir filename) with
  | some s => dictInsert (shardKeyOf filename) s acc
  | none => acc

/-- Embeds `IndexServiceImpl._load_all_shards` (lines 112-136): filter the
directory listing to `.index` files and load each in turn, skipping the ones
that fail.  `files` is the `os.listdir` result (a missing directory is the
`files = []` case: the source creates it and returns with no shards). -/
def load_all_shards (fs : FS) (index_dir : String) (files : List String) : Shards :=
  (files.filter (fun f => strEndsWith f ".index")).foldl (loadStep fs index_dir) []

/-- Embeds `IndexServiceImpl`: the index directory and the shard map. -/
structure IndexServiceImpl where
  index_dir : String
  shards : Shards
deriving Repr, DecidableEq

/-- Embeds `IndexServiceImpl.__init__` (lines 101-110): store the directory
and run startup discovery. -/
def IndexServiceImpl.init (fs : FS) (index_dir : String) (files : List String) :
    IndexServiceImpl :=
  { index_dir := index_dir, shards := load_all_shards fs index_dir files }

/-! ### gRPC surface -/

/-- The gRPC status codes the handlers set. -/
inductive StatusCode
  | notFound
  | invalidArgument
  | internal
deriving Repr, DecidableEq

/-- The caller-visible context after a handler ran: `set_code` /
`set_details` effects (`none` / `""` when never set — a clean OK call). -/
structure GrpcOutcome where
  code : Option StatusCode
  details : String
deriving Repr, DecidableEq

/-- A handler that set nothing on the context. -/
def GrpcOutcome.ok : GrpcOutcome := { code := none, details := "" }

/-- `SearchRequest {shard_key, query_vector, top_k, nprobe}` (proto ints). -/
structure SearchRequest where
  shard_key : String
  query_vector : Vec
  top_k : Int
  nprobe : Int
deriving Repr, DecidableEq

/-- `SearchResult {id, score, metadata_json}`. -/
structure SearchResult where
  id : Int
  score : Int
  metadata_json : String
deriving Repr, DecidableEq

/-- `SearchResponse {results, shard_key, search_latency_ms, cache_hit}`. -/
structure SearchResponse where
  results : List SearchResult
  shard_key : String
  search_latency_ms : Int
  cache_hit : Bool
deriving Repr, DecidableEq

/-- The default-constructed (empty) `SearchResponse` the error paths return. -/
def SearchResponse.empty : SearchResponse :=
  { results := [], shard_key := "", search_latency_ms := 0, cache_hit := false }

/-- `request.shard_key or "nyc_taxi_2023"` — empty string is falsy. -/
def resolvedKey (req : SearchRequest) : String :=
  if req.shard_key = "" then "nyc_taxi_2023" else req.shard_key

/-- `request.top_k if request.top_k > 0 else 10`. -/
def effectiveTopK (req : SearchRequest) : Nat :=
  (if req.top_k > 0 then req.top_k else 10).toNat

/-- `request.nprobe if request.nprobe > 0 else 10`. -/
def effectiveNprobe (req : SearchRequest) : Nat :=
  (if req.nprobe > 0 then req.nprobe else 10).toNat

/-- Embeds `IndexServiceImpl.SearchIndex` (lines 138-195): resolve the shard
key (default on empty), `NOT_FOUND` with the available keys when absent,
`INVALID_ARGUMENT` on a query/index dimension mismatch — both checked before
the engine is invoked — then default `top_k`/`nprobe`, search, and zip the
parallel result sequences into `SearchResult`s.  `search_latency_ms` is the
literal `0.0` of line 187 and `cache_hit` the literal `False`. -/
def SearchIndex (svc : IndexServiceImpl) (req : SearchRequest) :
    SearchResponse × GrpcOutcome :=
  match lookupShard (resolvedKey req) svc.shards with
  | none =>
      (SearchResponse.empty,
       { code := some .notFound,
         details := "Shard '" ++ resolvedKey req ++ "' not found. Available shards: "
                    ++ pyStrList (availableKeys svc.shards) })
  | some shard =>
      if req.query_vector.length ≠ shard.dimension then
        (SearchResponse.empty,
         { code := some .invalidArgument,
           details := "Query dimension " ++ toString req.query_vector.length
                      ++ " does not match index dimension " ++ toString shard.dimension })
      else
        let di := ShardIndex.search shard req.query_vector (effectiveTopK req) (effectiveNprobe req)
        let results := (List.zip di.1 di.2).map
          (fun p => ({ id := p.2, score := p.1, metadata_json := "" } : SearchResult))
        ({ results := results, shard_key := resolvedKey req,
           search_latency_ms := 0, cache_hit := false },
         GrpcOutcome.ok)

/-! ### Interleaving model of a reload racing a search

`ShardIndex.reload` performs, on a successful read, three separate attribute
assignments (`index_service.py` lines 85-87): `self.index = new_index`, then
`self.dimension = self.index.d`, then `self.total_vectors = self.index.ntotal`.
Under the interpreter each single assignment is atomic, but the sequence is
not.  A concurrent `SearchIndex` call reads `shard.dimension` first (the
dimension guard, line 162) and dereferences `shard.index` later (line 172,
inside `shard.search`).  We model the shard's mutable fields as a small state
type and the reload as the four-state trace those three assignments produce;
a racing reader observes each field at some point of the trace. -/

/-- The mutable attributes of a live `ShardIndex` that `reload` reassigns. -/
structure ShardFields where
  index : Index
  dimension : Nat
  total_vectors : Nat
deriving Repr, DecidableEq

/-- The successive states of the shard during a successful reload:
initial, after `self.index = new_index`, after `self.dimension = ...`,
after `self.total_vectors = ...`. -/
def reloadTrace (old : ShardFields) (newIndex : Index) : List ShardFields :=
  [old,
   { old with index := newIndex },
   { old with index := newIndex, dimension := newIndex.dimension },
   { index := newIndex, dimension := newIndex.dimension,
     total_vectors := newIndex.ntotal }]

/-- The shard state a reader sees at instant `t` of the reload (states past
the end of the trace stay at the final state). -/
def stateAt (old : ShardFields) (newIndex : Index) (t : Nat) : ShardFields :=
  (reloadTrace old newIndex).getD t
    { index := newIndex, dimension := newIndex.dimension,
      total_vectors := newIndex.ntotal }

/-- What a search racing the reload observes: the `dimension` it reads at
instant `t1` (the dimension guard) and the `index` it dereferences at the
later instant `t2` (the engine call). -/
def raceObservation (old : ShardFields) (newIndex : Index) (t1 t2 : Nat) :
    Nat × Index :=
  ((stateAt old newIndex t1).dimension, (stateAt old newIndex t2).index)

/-- `ReloadIndexResponse {success, message, reloaded_shards}`. -/
structure ReloadIndexResponse where
  success : Bool
  message : String
  reloaded_shards : List String
deriving Repr, DecidableEq

/-- Embeds `IndexServiceImpl.ReloadIndex` (lines 229-280): reject an empty
key (`INVALID_ARGUMENT`), `NOT_FOUND` when the key is unbound (the response
message lists the available keys), otherwise reload the shard in place and
report success with the reloaded key, or failure with an empty list.
Returns the post-call service state beside the response and context. -/
def ReloadIndex (fs : FS) (svc : IndexServiceImpl) (shard_key : String) :
    IndexServiceImpl × ReloadIndexResponse × GrpcOutcome :=
  if shard_key = "" then
    (svc,
     { success := false, message := "shard_key is required", reloaded_shards := [] },
     { code := some .invalidArgument, details := "shard_key is required" })
  else
    match lookupShard shard_key svc.shards with
    | none =>
        (svc,
         { success := false,
           message := "Shard '" ++ shard_key ++ "' not found. Available shards: "
                      ++ pyStrList (availableKeys svc.shards),
           reloaded_shards := [] },
         { code := some .notFound, details := "Shard '" ++ shard_key ++ "' not found" })
    | some shard =>
        let r := ShardIndex.reload fs shard
        let svc' : IndexServiceImpl := { svc with shards := dictInsert shard_key r.1 svc.shards }
        if r.2 then
          (svc',
           { success := true,
             message := "Shard '" ++ shard_key ++ "' reloaded successfully",
             reloaded_shards := [shard_key] },
           GrpcOutcome.ok)
        else
          (svc',
           { success := false,
             message := "Failed to reload shard '" ++ shard_key ++ "'",
             reloaded_shards := [] },
           GrpcOutcome.ok)

/-! ### Concrete fixtures

Small concrete indexes, shards and services used to instantiate witnesses
and to exhibit counterexamples. -/

/-- A 1-dimensional 2-cell index: centroids at 0 and 10; both stored vectors
live in cell 1; `m = 1`, `nbits = 1`, codebook centroids at 0 and 1. -/
def idxA : Index :=
  { dimension := 1, nlist := 2, m := 1, nbits := 1,
    coarseCentroids := [[0], [10]],
    subCodebooks := [[[0], [1]]],
    invertedLists := [[], [{ externalId := 5, code := [0] }, { externalId := 6, code := [1] }]],
    ntotal := 2 }

/-- A 2-dimensional single-cell index (a different generation than `idxA`). -/
def idxB : Index :=
  { dimension := 2, nlist := 1, m := 1, nbits := 1,
    coarseCentroids := [[0, 0]],
    subCodebooks := [[[0, 0], [1, 1]]],
    invertedLists := [[{ externalId := 7, code := [0] }]],
    ntotal := 1 }

/-- A 1-dimensional 3-cell index, one vector per cell. -/
def idx3 : Index :=
  { dimension := 1, nlist := 3, m := 1, nbits := 1,
    coarseCentroids := [[0], [10], [20]],
    subCodebooks := [[[0], [1]]],
    invertedLists := [[{ externalId := 1, code := [0] }],
                      [{ externalId := 2, code := [0] }],
                      [{ externalId := 3, code := [0] }]],
    ntotal := 3 }

/-- The artifact path shard `"s"` is loaded from. -/
def pathA : String := "/data/indexes/s.index"

/-- Shard `"s"`, freshly loaded from `idxA`. -/
def shardA : ShardIndex :=
  { shard_key := "s", index_path := pathA, index := idxA,
    dimension := 1, total_vectors := 2 }

/-- A service holding exactly shard `"s"`. -/
def svcA : IndexServiceImpl := { index_dir := "/data/indexes", shards := [("s", shardA)] }

/-- A filesystem where only `pathA` holds a (readable) artifact, `idxA`. -/
def fsA : FS := fun p => if p = pathA then some idxA else none

/-- A filesystem where every read fails. -/
def fsNone : FS := fun _ => none

/-- Shard `"t"`, loaded from `idx3`. -/
def shard3 : ShardIndex :=
  { shard_key := "t", index_path := "/data/indexes/t.index", index := idx3,
    dimension := 1, total_vectors := 3 }

/-- A service holding exactly shard `"t"`. -/
def svc3 : IndexServiceImpl := { index_dir := "/data/indexes", shards := [("t", shard3)] }

/-- The pre-reload field values of shard `"s"` in the interleaving model. -/
def oldFieldsA : ShardFields := { index := idxA, dimension := 1, total_vectors := 2 }

/-! ## Helper lemmas -/

theorem length_insertSorted (le : α → α → Bool) (x : α) (l : List α) :
    (insertSorted le x l).length = l.length + 1 := by
  induction l with
  | nil => rfl
  | cons y ys ih =>
    unfold insertSorted
    split <;> simp [ih]

theorem length_sortByLe (le : α → α → Bool) (l : List α) :
    (sortByLe le l).length = l.length := by
  induction l with
  | nil => rfl
  | cons y ys ih =>
    show (insertSorted le y (sortByLe le ys)).length = ys.length + 1
    rw [length_insertSorted, ih]

theorem length_search (idx : Index) (q : Vec) (top_k nprobe : Nat) :
    (idx.search q top_k nprobe).length = min top_k (idx.candidates q nprobe).length := by
  unfold Index.search
  rw [List.length_take, length_sortByLe]

theorem length_probedCells (idx : Index) (q : Vec) (nprobe : Nat)
    (h : idx.coarseCentroids.length = idx.nlist) :
    (idx.probedCells q nprobe).length = min (max nprobe 1) idx.nlist := by
  unfold Index.probedCells
  simp only [List.length_map, List.length_take, length_sortByLe, List.enum_length, h]
  omega

theorem zip_fst_snd (l : List (α × β)) :
    List.zip (l.map Prod.fst) (l.map Prod.snd) = l := by
  induction l with
  | nil => rfl
  | cons a l ih => simp [ih]

theorem lookup_dictInsert_self (k : String) (v : ShardIndex) :
    ∀ d : Shards, lookupShard k (dictInsert k v d) = some v := by
  intro d
  induction d with
  | nil => simp [dictInsert, lookupShard]
  | cons p rest ih =>
    obtain ⟨k1, v1⟩ := p
    by_cases hk : k1 = k
    · simp [dictInsert, hk, lookupShard]
    · simpa [dictInsert, hk, lookupShard] using ih

theorem lookup_dictInsert_other {k k' : String} (v : ShardIndex) (hne : k' ≠ k) :
    ∀ d : Shards, lookupShard k' (dictInsert k v d) = lookupShard k' d := by
  have h1 : ¬k = k' := fun h => hne h.symm
  intro d
  induction d with
  | nil => simp [dictInsert, lookupShard, h1]
  | cons p rest ih =>
    obtain ⟨k1, v1⟩ := p
    by_cases hk : k1 = k
    · subst hk
      simp [dictInsert, lookupShard, h1]
    · by_cases hk' : k1 = k'
      · simp [dictInsert, hk, lookupShard, hk', hne]
      · simpa [dictInsert, hk, lookupShard, hk'] using ih

theorem lookup_dictInsert_eq {k : String} {d : Shards} {s : ShardIndex}
    (h : lookupShard k d = some s) (k' : String) :
    lookupShard k' (dictInsert k s d) = lookupShard k' d := by
  by_cases hk : k' = k
  · subst hk; rw [lookup_dictInsert_self, h]
  · exact lookup_dictInsert_other s hk d

theorem keys_dictInsert_of_mem {k : String} {v : ShardIndex} :
    ∀ {d : Shards} {s : ShardIndex}, lookupShard k d = some s →
      availableKeys (dictInsert k v d) = availableKeys d := by
  intro d
  induction d with
  | nil => intro s h; simp [lookupShard] at h
  | cons p rest ih =>
    obtain ⟨k1, v1⟩ := p
    intro s h
    by_cases hk : k1 = k
    · simp [dictInsert, hk, availableKeys]
    · simp only [lookupShard, if_neg hk] at h
      simpa [dictInsert, hk, availableKeys] using ih h

theorem mem_keys_of_lookup {k : String} {d : Shards} :
    ∀ {s : ShardIndex}, lookupShard k d = some s → k ∈ availableKeys d := by
  induction d with
  | nil => intro s h; simp [lookupShard] at h
  | cons p rest ih =>
    obtain ⟨k1, v1⟩ := p
    intro s h
    by_cases hk : k1 = k
    · simp [availableKeys, hk]
    · simp only [lookupShard, if_neg hk] at h
      simp only [availableKeys, List.map_cons, List.mem_cons]
      exact Or.inr (ih h)

theorem mem_keys_dictInsert {k' k : String} {v : ShardIndex} :
    ∀ {d : Shards}, k' ∈ availableKeys (dictInsert k v d) ↔ k' = k ∨ k' ∈ availableKeys d := by
  intro d
  induction d with
  | nil => simp [dictInsert, availableKeys]
  | cons p rest ih =>
    obtain ⟨k1, v1⟩ := p
    by_cases hk : k1 = k
    · subst hk
      simp [dictInsert, availableKeys]
    · simp only [dictInsert, if_neg hk, availableKeys, List.map_cons, List.mem_cons]
      rw [show (List.map (fun p => p.1) (dictInsert k v rest)) = availableKeys (dictInsert k v rest) from rfl] at *
      constructor
      · rintro (rfl | hm)
        · exact Or.inr (Or.inl rfl)
        · rcases ih.mp hm with h | h
          · exact Or.inl h
          · exact Or.inr (Or.inr h)
      · rintro (rfl | rfl | hm)
        · exact Or.inr (ih.mpr (Or.inl rfl))
        · exact Or.inl rfl
        · exact Or.inr (ih.mpr (Or.inr hm))

theorem load_isSome (fs : FS) (a b : String) :
    (ShardIndex.load fs a b).isSome = (fs b).isSome := by
  unfold ShardIndex.load
  cases fs b <;> rfl

theorem mem_keys_loadStep {fs : FS} {dir : String} {k : String} {acc : Shards}
    {f : String} :
    k ∈ availableKeys (loadStep fs dir acc f) ↔
      (k = shardKeyOf f ∧ (fs (joinPath dir f)).isSome = true) ∨ k ∈ availableKeys acc := by
  unfold loadStep
  cases hload : ShardIndex.load fs (shardKeyOf f) (joinPath dir f) with
  | none =>
      have : (fs (joinPath dir f)).isSome = false := by
        rw [← load_isSome fs (shardKeyOf f), hload]; rfl
      simp [this]
  | some s =>
      have : (fs (joinPath dir f)).isSome = true := by
        rw [← load_isSome fs (shardKeyOf f), hload]; rfl
      simp [mem_keys_dictInsert, this]

theorem mem_keys_foldl_loadStep {fs : FS} {dir : String} {k : String} :
    ∀ (files : List String) (acc : Shards),
      k ∈ availableKeys (files.foldl (loadStep fs dir) acc) ↔
        k ∈ availableKeys acc ∨
          ∃ f ∈ files, (fs (joinPath dir f)).isSome = true ∧ shardKeyOf f = k := by
  intro files
  induction files with
  | nil => intro acc; simp
  | cons f rest ih =>
    intro acc
    rw [List.foldl_cons, ih]
    rw [mem_keys_loadStep]
    constructor
    · rintro ((⟨rfl, hs⟩ | hacc) | ⟨g, hg, hs, rfl⟩)
      · exact Or.inr ⟨f, List.mem_cons_self f rest, hs, rfl⟩
      · exact Or.inl hacc
      · exact Or.inr ⟨g, List.mem_cons_of_mem f hg, hs, rfl⟩
    · rintro (hacc | ⟨g, hg, hs, rfl⟩)
      · exact Or.inl (Or.inr hacc)
      · rcases List.mem_cons.mp hg with rfl | hg'
        · exact Or.inl (Or.inl ⟨rfl, hs⟩)
        · exact Or.inr ⟨g, hg', hs, rfl⟩

/-- Which keys discovery ends up with: exactly the stems of the `.index`
files whose artifact loads. -/
theorem mem_keys_load_all_shards {fs : FS} {dir : String} {k : String}
    {files : List String} :
    k ∈ availableKeys (load_all_shards fs dir files) ↔
      ∃ f ∈ files, strEndsWith f ".index" = true ∧
        (fs (joinPath dir f)).isSome = true ∧ shardKeyOf f = k := by
  unfold load_all_shards
  rw [mem_keys_foldl_loadStep]
  simp only [availableKeys, List.map_nil, List.not_mem_nil, false_or, List.mem_filter]
  constructor
  · rintro ⟨f, ⟨hf, hsuf⟩, hs, rfl⟩
    exact ⟨f, hf, hsuf, hs, rfl⟩
  · rintro ⟨f, hf, hsuf, hs, rfl⟩
    exact ⟨f, ⟨hf, hsuf⟩, hs, rfl⟩

/-- `SearchIndex` only consults the registry through key lookup and the
available-keys listing, so two service states that agree on those agree on
every search. -/
theorem SearchIndex_congr {svc svc' : IndexServiceImpl}
    (hl : ∀ k, lookupShard k svc'.shards = lookupShard k svc.shards)
    (hk : availableKeys svc'.shards = availableKeys svc.shards)
    (req : SearchRequest) : SearchIndex svc' req = SearchIndex svc req := by
  unfold SearchIndex
  simp only [hl, hk]

theorem reload_fst_index_path (fs : FS) (s : ShardIndex) :
    (ShardIndex.reload fs s).1.index_path = s.index_path := by
  unfold ShardIndex.reload
  cases fs s.index_path <;> rfl

theorem reload_fst_shard_key (fs : FS) (s : ShardIndex) :
    (ShardIndex.reload fs s).1.shard_key = s.shard_key := by
  unfold ShardIndex.reload
  cases fs s.index_path <;> rfl

theorem stateAt_cases (old : ShardFields) (newIndex : Index) (t : Nat) :
    stateAt old newIndex t = old ∨
    stateAt old newIndex t = { old with index := newIndex } ∨
    stateAt old newIndex t = { old with index := newIndex, dimension := newIndex.dimension } ∨
    stateAt old newIndex t =
      { index := newIndex, dimension := newIndex.dimension,
        total_vectors := newIndex.ntotal } := by
  match t with
  | 0 => exact Or.inl rfl
  | 1 => exact Or.inr (Or.inl rfl)
  | 2 => exact Or.inr (Or.inr (Or.inl rfl))
  | 3 => exact Or.inr (Or.inr (Or.inr rfl))
  | n + 4 => exact Or.inr (Or.inr (Or.inr rfl))

/-! ## Claim theorems -/

/-- C2: every `SearchIndex` request whose query vector length differs from
the resolved shard's index dimension is rejected with `INVALID_ARGUMENT` and
the dimension-mismatch message, and the handler returns the empty response —
the guard sits before the engine call in `SearchIndex`, so no distance
computation or index search happens on this path. -/
theorem c2_dimension_guard (svc : IndexServiceImpl) (req : SearchRequest)
    (shard : ShardIndex)
    (hl : lookupShard (resolvedKey req) svc.shards = some shard)
    (hd : req.query_vector.length ≠ shard.dimension) :
    SearchIndex svc req =
      (SearchResponse.empty,
       { code := some .invalidArgument,
         details := "Query dimension " ++ toString req.query_vector.length
                    ++ " does not match index dimension " ++ toString shard.dimension }) := by
  unfold SearchIndex
  simp only [hl]
  rw [if_pos hd]

/-- Witness for C2 at a concrete input: a length-2 query against the
1-dimensional shard `"s"` of `svcA`. -/
theorem c2_dimension_guard_witness :
    SearchIndex svcA { shard_key := "s", query_vector := [0, 0], top_k := 10, nprobe := 10 } =
      (SearchResponse.empty,
       { code := some .invalidArgument,
         details := "Query dimension 2 does not match index dimension 1" }) := by
  have h := c2_dimension_guard svcA
    { shard_key := "s", query_vector := [0, 0], top_k := 10, nprobe := 10 }
    shardA (by decide) (by decide)
  simpa using h

/-- C7: a nonempty shard key absent from the registry makes `SearchIndex`
fail `NOT_FOUND` with a details message listing the available shard keys,
and makes `ReloadIndex` fail `NOT_FOUND` with `success = false`, empty
`reloaded_shards`, and a response message listing the available shard keys. -/
theorem c7_unknown_key (fs : FS) (svc : IndexServiceImpl) (key : String)
    (q : Vec) (tk np : Int)
    (hne : key ≠ "") (habs : lookupShard key svc.shards = none) :
    SearchIndex svc { shard_key := key, query_vector := q, top_k := tk, nprobe := np } =
      (SearchResponse.empty,
       { code := some .notFound,
         details := "Shard '" ++ key ++ "' not found. Available shards: "
                    ++ pyStrList (availableKeys svc.shards) }) ∧
    (ReloadIndex fs svc key).2.1 =
      { success := false,
        message := "Shard '" ++ key ++ "' not found. Available shards: "
                   ++ pyStrList (availableKeys svc.shards),
        reloaded_shards := [] } ∧
    (ReloadIndex fs svc key).2.2 =
      { code := some .notFound, details := "Shard '" ++ key ++ "' not found" } := by
  have hres : resolvedKey { shard_key := key, query_vector := q, top_k := tk, nprobe := np } = key := by
    unfold resolvedKey
    exact if_neg hne
  refine ⟨?_, ?_, ?_⟩
  · unfold SearchIndex
    rw [hres]
    simp only [habs]
  · unfold ReloadIndex
    rw [if_neg hne]
    simp only [habs]
  · unfold ReloadIndex
    rw [if_neg hne]
    simp only [habs]

/-- Witness for C7 at a concrete input: key `"x"` against `svcA`, which only
holds `"s"`. -/
theorem c7_unknown_key_witness :
    SearchIndex svcA { shard_key := "x", query_vector := [0], top_k := 1, nprobe := 1 } =
      (SearchResponse.empty,
       { code := some .notFound,
         details := "Shard 'x' not found. Available shards: ['s']" }) ∧
    (ReloadIndex fsA svcA "x").2.1 =
      { success := false,
        message := "Shard 'x' not found. Available shards: ['s']",
        reloaded_shards := [] } ∧
    (ReloadIndex fsA svcA "x").2.2 =
      { code := some .notFound, details := "Shard 'x' not found" } := by
  have h := c7_unknown_key fsA svcA "x" [0] 1 1 (by decide) (by decide)
  simpa using h

/-- C1 as stated is false on the modelled engine: shard `"s"` holds
`N = 2 ≥ top_k = 2` vectors, the query has the right dimension and the call
succeeds, yet `SearchIndex` returns 0 results — with `nprobe = 1` only the
(empty) nearest cell is probed, so fewer than `top_k` candidates are ever
scanned. -/
theorem c1_counterexample :
    shardA.total_vectors = 2 ∧
    effectiveTopK { shard_key := "s", query_vector := [0], top_k := 2, nprobe := 1 } = 2 ∧
    (SearchIndex svcA { shard_key := "s", query_vector := [0], top_k := 2, nprobe := 1 }).2.code = none ∧
    (SearchIndex svcA { shard_key := "s", query_vector := [0], top_k := 2, nprobe := 1 }).1.results.length = 0 := by
  refine ⟨rfl, rfl, ?_, ?_⟩ <;> decide

/-- C1 amended: a valid-dimension `SearchIndex` call returns exactly
`min(top_k, number of candidates in the probed cells)` results — never
padded beyond the candidates actually scanned; when the probed cells cover
every stored vector this is `min(top_k, N)`. -/
theorem c1_result_length (svc : IndexServiceImpl) (req : SearchRequest)
    (shard : ShardIndex)
    (hl : lookupShard (resolvedKey req) svc.shards = some shard)
    (hd : req.query_vector.length = shard.dimension) :
    (SearchIndex svc req).1.results.length =
      min (effectiveTopK req)
        (shard.index.candidates req.query_vector (effectiveNprobe req)).length := by
  unfold SearchIndex
  simp only [hl]
  rw [if_neg (by simp [hd])]
  simp only [ShardIndex.search, zip_fst_snd, List.length_map]
  exact length_search _ _ _ _

/-- Witness for C1's amended theorem at a concrete input. -/
theorem c1_result_length_witness :
    (SearchIndex svcA { shard_key := "s", query_vector := [0], top_k := 2, nprobe := 2 }).1.results.length =
      min (effectiveTopK { shard_key := "s", query_vector := [0], top_k := 2, nprobe := 2 })
        (shardA.index.candidates [0]
          (effectiveNprobe { shard_key := "s", query_vector := [0], top_k := 2, nprobe := 2 })).length :=
  c1_result_length svcA { shard_key := "s", query_vector := [0], top_k := 2, nprobe := 2 }
    shardA (by decide) (by decide)

/-- C8 as stated is false on the code: a request with `nprobe = 0` (below 1)
is supposed to probe exactly `1` cell, but `SearchIndex` replaces any
nonpositive `nprobe` with the default `10` before the engine clamps to
`[1, nlist]`, so against the 3-cell shard `"t"` it probes all `3` cells. -/
theorem c8_counterexample :
    (idx3.probedCells [0]
        (effectiveNprobe { shard_key := "t", query_vector := [0], top_k := 1, nprobe := 0 })).length = 3 ∧
    min (max (Int.toNat 0) 1) idx3.nlist = 1 := by
  constructor <;> decide

/-- C8 amended: the number of cells the engine probes for a `SearchIndex`
request is `min(max(n, 1), nlist)` where `n` is the request's `nprobe` when
positive and the default `10` otherwise; in particular `nprobe > nlist`
probes exactly `nlist` cells, but a nonpositive `nprobe` probes
`min(10, nlist)` cells, not 1. -/
theorem c8_nprobe_clamp (idx : Index) (q : Vec) (req : SearchRequest)
    (h : idx.coarseCentroids.length = idx.nlist) :
    (idx.probedCells q (effectiveNprobe req)).length
        = min (max (effectiveNprobe req) 1) idx.nlist ∧
    (req.nprobe > 0 → effectiveNprobe req = req.nprobe.toNat) ∧
    (req.nprobe ≤ 0 → effectiveNprobe req = 10) := by
  refine ⟨length_probedCells _ _ _ h, ?_, ?_⟩
  · intro hp
    unfold effectiveNprobe
    rw [if_pos hp]
  · intro hp
    unfold effectiveNprobe
    rw [if_neg (by omega)]
    rfl

/-- Witness for C8's amended theorem at a concrete input: `nprobe = 5`
against the 3-cell index probes `min(max(5,1),3) = 3` cells. -/
theorem c8_nprobe_clamp_witness :
    (idx3.probedCells [0]
        (effectiveNprobe { shard_key := "t", query_vector := [0], top_k := 1, nprobe := 5 })).length
      = min (max (effectiveNprobe { shard_key := "t", query_vector := [0], top_k := 1, nprobe := 5 }) 1)
          idx3.nlist ∧
    effectiveNprobe { shard_key := "t", query_vector := [0], top_k := 1, nprobe := 5 } = Int.toNat 5 := by
  have h := c8_nprobe_clamp idx3 [0]
    { shard_key := "t", query_vector := [0], top_k := 1, nprobe := 5 } (by decide)
  exact ⟨h.1, h.2.1 (by decide)⟩

/-- C3: when the artifact read fails during a reload of an existing shard,
every registry lookup is unchanged (in particular the shard's old index,
dimension and total_vectors stay live and searchable under its key), and the
response reports `success = false` with empty `reloaded_shards`. -/
theorem c3_failed_reload_keeps_old (fs : FS) (svc : IndexServiceImpl)
    (key : String) (shard : ShardIndex)
    (hne : key ≠ "") (hl : lookupShard key svc.shards = some shard)
    (hfs : fs shard.index_path = none) :
    lookupShard key (ReloadIndex fs svc key).1.shards = some shard ∧
    (∀ k', lookupShard k' (ReloadIndex fs svc key).1.shards = lookupShard k' svc.shards) ∧
    (ReloadIndex fs svc key).2.1.success = false ∧
    (ReloadIndex fs svc key).2.1.reloaded_shards = [] := by
  have hr : ShardIndex.reload fs shard = (shard, false) := by
    unfold ShardIndex.reload
    rw [hfs]
  have hall : ∀ k', lookupShard k' (ReloadIndex fs svc key).1.shards = lookupShard k' svc.shards := by
    intro k'
    unfold ReloadIndex
    rw [if_neg hne]
    simp only [hl, hr]
    exact lookup_dictInsert_eq hl k'
  refine ⟨?_, hall, ?_, ?_⟩
  · rw [hall key, hl]
  · unfold ReloadIndex
    rw [if_neg hne]
    simp only [hl, hr]
    rfl
  · unfold ReloadIndex
    rw [if_neg hne]
    simp only [hl, hr]
    rfl

/-- Witness for C3 at a concrete input: reloading shard `"s"` over a
filesystem where every read fails. -/
theorem c3_failed_reload_keeps_old_witness :
    lookupShard "s" (ReloadIndex fsNone svcA "s").1.shards = some shardA ∧
    (ReloadIndex fsNone svcA "s").2.1.success = false ∧
    (ReloadIndex fsNone svcA "s").2.1.reloaded_shards = [] := by
  have h := c3_failed_reload_keeps_old fsNone svcA "s" shardA (by decide) (by decide) (by decide)
  exact ⟨h.1, h.2.2.1, h.2.2.2⟩

/-- C4: reloading a shard from an unchanged artifact (the filesystem still
yields exactly the index the shard holds) succeeds and leaves every
subsequent `SearchIndex` call — any query, `top_k`, `nprobe`, any shard key —
with results identical to before the reload. -/
theorem c4_reload_idempotent (fs : FS) (svc : IndexServiceImpl)
    (key : String) (s : ShardIndex)
    (hne : key ≠ "") (hl : lookupShard key svc.shards = some s)
    (hfs : fs s.index_path = some s.index)
    (hdim : s.dimension = s.index.dimension)
    (htot : s.total_vectors = s.index.ntotal) :
    (ReloadIndex fs svc key).2.1.success = true ∧
    ∀ req, SearchIndex (ReloadIndex fs svc key).1 req = SearchIndex svc req := by
  have hs' : ShardIndex.reload fs s = (s, true) := by
    simp only [ShardIndex.reload, hfs]
    rw [← hdim, ← htot]
  constructor
  · unfold ReloadIndex
    rw [if_neg hne]
    simp only [hl, hs']
    rfl
  · intro req
    apply SearchIndex_congr
    · intro k
      unfold ReloadIndex
      rw [if_neg hne]
      simp only [hl, hs']
      exact lookup_dictInsert_eq hl k
    · unfold ReloadIndex
      rw [if_neg hne]
      simp only [hl, hs']
      exact keys_dictInsert_of_mem hl

/-- Witness for C4 at a concrete input: shard `"s"` reloaded from the
unchanged `fsA`, then searched with a concrete request. -/
theorem c4_reload_idempotent_witness :
    (ReloadIndex fsA svcA "s").2.1.success = true ∧
    SearchIndex (ReloadIndex fsA svcA "s").1
        { shard_key := "s", query_vector := [0], top_k := 2, nprobe := 2 }
      = SearchIndex svcA { shard_key := "s", query_vector := [0], top_k := 2, nprobe := 2 } := by
  have h := c4_reload_idempotent fsA svcA "s" shardA (by decide) (by decide) (by decide)
    (by decide) (by decide)
  exact ⟨h.1, h.2 { shard_key := "s", query_vector := [0], top_k := 2, nprobe := 2 }⟩

/-- C5 as stated is false on the code: `reload` assigns `index`,
`dimension` and `total_vectors` in three separate statements, so a search
whose two reads both land between the first and second assignment observes
the new generation's index paired with the old generation's dimension —
a mixture belonging to neither `(old.dimension, old.index)` nor
`(new.dimension, new index)`.  Here the old shard fields come from `idxA`
(dimension 1) and the new generation is `idxB` (dimension 2). -/
theorem c5_counterexample :
    raceObservation oldFieldsA idxB 1 1 ≠ (oldFieldsA.dimension, oldFieldsA.index) ∧
    raceObservation oldFieldsA idxB 1 1 ≠ (idxB.dimension, idxB) := by
  constructor <;> decide

/-- C5 amended: the swap of the `index` attribute itself is one atomic
assignment, so each *individual* field read during a racing reload returns
either the old or the new generation's value — the engine always searches a
wholly old or wholly new index — but the tuple of fields a search observes
may mix generations (new index with old dimension or old total_vectors). -/
theorem c5_per_field_atomicity (old : ShardFields) (newIndex : Index) (t1 t2 : Nat) :
    ((raceObservation old newIndex t1 t2).1 = old.dimension ∨
     (raceObservation old newIndex t1 t2).1 = newIndex.dimension) ∧
    ((raceObservation old newIndex t1 t2).2 = old.index ∨
     (raceObservation old newIndex t1 t2).2 = newIndex) ∧
    ((stateAt old newIndex t1).total_vectors = old.total_vectors ∨
     (stateAt old newIndex t1).total_vectors = newIndex.ntotal) := by
  unfold raceObservation
  refine ⟨?_, ?_, ?_⟩
  · rcases stateAt_cases old newIndex t1 with h | h | h | h <;> rw [h] <;> simp
  · rcases stateAt_cases old newIndex t2 with h | h | h | h <;> rw [h] <;> simp
  · rcases stateAt_cases old newIndex t1 with h | h | h | h <;> rw [h] <;> simp

/-- C6: during startup discovery, an artifact whose read fails (here
`bad`, whose stem no other listed file shares) is simply absent from the
registry, while every other `.index` file whose artifact reads successfully
is loaded under its stem.  Discovery is a total function of the directory
listing and the filesystem — the per-file failure is swallowed inside
`loadStep`, so no input aborts it. -/
theorem c6_discovery_isolation (fs : FS) (dir : String) (files : List String)
    (bad : String)
    (hmem : bad ∈ files) (hsuf : strEndsWith bad ".index" = true)
    (hfail : fs (joinPath dir bad) = none)
    (huniq : ∀ f ∈ files, f ≠ bad → shardKeyOf f ≠ shardKeyOf bad) :
    shardKeyOf bad ∉ availableKeys (load_all_shards fs dir files) ∧
    ∀ f ∈ files, strEndsWith f ".index" = true → (fs (joinPath dir f)).isSome = true →
      shardKeyOf f ∈ availableKeys (load_all_shards fs dir files) := by
  constructor
  · intro h
    rcases mem_keys_load_all_shards.mp h with ⟨f, hf, hs, hsome, hkey⟩
    by_cases hfb : f = bad
    · subst hfb
      rw [hfail] at hsome
      exact Bool.false_ne_true hsome
    · exact (huniq f hf hfb) hkey
  · intro f hf hs hsome
    exact mem_keys_load_all_shards.mpr ⟨f, hf, hs, hsome, rfl⟩

/-- Witness for C6 at a concrete input: listing `["s.index", "bad.index",
"notes.txt"]` over `fsA`, where only `s.index` is readable: the failing
shard `"bad"` is absent, the loadable shard `"s"` is present. -/
theorem c6_discovery_isolation_witness :
    shardKeyOf "bad.index" ∉
      availableKeys (load_all_shards fsA "/data/indexes" ["s.index", "bad.index", "notes.txt"]) ∧
    shardKeyOf "s.index" ∈
      availableKeys (load_all_shards fsA "/data/indexes" ["s.index", "bad.index", "notes.txt"]) := by
  have h := c6_discovery_isolation fsA "/data/indexes" ["s.index", "bad.index", "notes.txt"]
    "bad.index" (by decide) (by decide) (by decide) (by decide)
  exact ⟨h.1, h.2 "s.index" (by decide) (by decide) (by decide)⟩

/-- C9 as stated is false on the code: `SearchIndex` always fills
`search_latency_ms` with the literal `0.0` of line 187 (the source comment
reads "Could add timing here") — two successful searches with different
workloads both report zero, so the field is a constant, not a measurement.
Both calls below succeed (`code = none`). -/
theorem c9_counterexample :
    (SearchIndex svcA { shard_key := "s", query_vector := [0], top_k := 1, nprobe := 1 }).2.code = none ∧
    (SearchIndex svcA { shard_key := "s", query_vector := [0], top_k := 2, nprobe := 2 }).2.code = none ∧
    (SearchIndex svcA { shard_key := "s", query_vector := [0], top_k := 1, nprobe := 1 }).1.search_latency_ms = 0 ∧
    (SearchIndex svcA { shard_key := "s", query_vector := [0], top_k := 2, nprobe := 2 }).1.search_latency_ms = 0 := by
  refine ⟨?_, ?_, ?_, ?_⟩ <;> decide

/-- C9 amended: every successful `SearchIndex` response carries the resolved
shard key, but `search_latency_ms` is the constant `0` on every response
(success or error) — no latency is measured. -/
theorem c9_latency_constant (svc : IndexServiceImpl) (req : SearchRequest) :
    (SearchIndex svc req).1.search_latency_ms = 0 ∧
    (∀ shard, lookupShard (resolvedKey req) svc.shards = some shard →
       req.query_vector.length = shard.dimension →
       (SearchIndex svc req).1.shard_key = resolvedKey req) := by
  constructor
  · unfold SearchIndex
    split
    · rfl
    · split
      · rfl
      · rfl
  · intro shard hl hd
    unfold SearchIndex
    simp only [hl]
    rw [if_neg (by simp [hd])]

/-- Witness for C9's amended theorem at a concrete successful call. -/
theorem c9_latency_constant_witness :
    (SearchIndex svcA { shard_key := "s", query_vector := [0], top_k := 1, nprobe := 1 }).1.search_latency_ms = 0 ∧
    (SearchIndex svcA { shard_key := "s", query_vector := [0], top_k := 1, nprobe := 1 }).1.shard_key
      = resolvedKey { shard_key := "s", query_vector := [0], top_k := 1, nprobe := 1 } := by
  have h := c9_latency_constant svcA { shard_key := "s", query_vector := [0], top_k := 1, nprobe := 1 }
  exact ⟨h.1, h.2 shardA (by decide) (by decide)⟩

/-- C10: `ReloadIndex` — on any filesystem, service state and requested key,
whether it succeeds, fails, or rejects the request — preserves the
registry's key set exactly, and every shard reachable afterwards descends
from a shard that was already registered under the same key, with the same
`index_path` (the only path a reload ever re-reads) and the same
`shard_key`. -/
theorem c10_registry_invariant (fs : FS) (svc : IndexServiceImpl) (key : String) :
    availableKeys (ReloadIndex fs svc key).1.shards = availableKeys svc.shards ∧
    (∀ k' s', lookupShard k' (ReloadIndex fs svc key).1.shards = some s' →
      ∃ s, lookupShard k' svc.shards = some s ∧
        s'.index_path = s.index_path ∧ s'.shard_key = s.shard_key) := by
  unfold ReloadIndex
  by_cases hk : key = ""
  · rw [if_pos hk]
    exact ⟨rfl, fun k' s' h => ⟨s', h, rfl, rfl⟩⟩
  · rw [if_neg hk]
    cases hl : lookupShard key svc.shards with
    | none =>
        simp only [hl]
        exact ⟨trivial, fun k' s' h => ⟨s', h, rfl, rfl⟩⟩
    | some shard =>
        simp only [hl]
        have hkeys : availableKeys (dictInsert key (ShardIndex.reload fs shard).1 svc.shards)
            = availableKeys svc.shards := keys_dictInsert_of_mem hl
        have hlook : ∀ k' s',
            lookupShard k' (dictInsert key (ShardIndex.reload fs shard).1 svc.shards) = some s' →
            ∃ s, lookupShard k' svc.shards = some s ∧
              s'.index_path = s.index_path ∧ s'.shard_key = s.shard_key := by
          intro k' s' h
          by_cases hkk : k' = key
          · subst hkk
            rw [lookup_dictInsert_self] at h
            cases h
            exact ⟨shard, hl, reload_fst_index_path fs shard, reload_fst_shard_key fs shard⟩
          · rw [lookup_dictInsert_other _ hkk] at h
            exact ⟨s', h, rfl, rfl⟩
        split
        · exact ⟨hkeys, hlook⟩
        · exact ⟨hkeys, hlook⟩

/-- Witness for C10 at a concrete input: reloading `"s"` over `fsA` keeps
the key set, and the shard found under `"s"` afterwards descends from
`shardA` with its original path and key. -/
theorem c10_registry_invariant_witness :
    availableKeys (ReloadIndex fsA svcA "s").1.shards = availableKeys svcA.shards ∧
    shardA.index_path = pathA ∧ shardA.shard_key = "s" := by
  have h := c10_registry_invariant fsA svcA "s"
  obtain ⟨s, hs, hp, hk⟩ := h.2 "s" shardA (by decide)
  have hlk : lookupShard "s" svcA.shards = some shardA := by decide
  rw [hlk] at hs
  obtain rfl : shardA = s := Option.some.inj hs
  exact ⟨h.1, rfl, rfl⟩

end VCS
